import Mathlib

set_option maxHeartbeats 1000000

/-!
Verification development for the reranking proxy in `server/gemma_proxy.py`.

The handler `rerank` builds a line-oriented prompt from a context dict and a
candidate list, invokes an external inference process, and validates its raw
text output into a list of integers, falling back to the empty list.

Python runtime values reaching the handler are modelled by `PyVal`; Python
floats are carried as exact rationals (all numeric literals exercised here are
exactly representable, so fixed-point formatting and truncation agree with
CPython on these values). Exceptions are modelled by `Except PyErr`.
-/

/-- Model of a Python/JSON runtime value as seen by the handler. -/
inductive PyVal where
  | none
  | bool (b : Bool)
  | int (n : Int)
  | float (q : ℚ)
  | str (s : String)
  | list (xs : List PyVal)
  | dict (kvs : List (String × PyVal))
deriving Repr

/-- Model of a Python exception escaping an expression. -/
inductive PyErr where
  | typeError (msg : String)
deriving Repr, DecidableEq

/-- Python truthiness, as used by `bool(...)` in the context line. -/
def pyBool : PyVal → Bool
  | PyVal.none => false
  | PyVal.bool b => b
  | PyVal.int n => !(n == 0)
  | PyVal.float q => !(q.num == 0)
  | PyVal.str s => !(s == "")
  | PyVal.list xs => !xs.isEmpty
  | PyVal.dict kvs => !kvs.isEmpty

/-- Python `isinstance(v, int)`: true for ints and for bools (bool is a
subclass of int), false for everything else. -/
def isInstInt : PyVal → Bool
  | PyVal.int _ => true
  | PyVal.bool _ => true
  | _ => false

/-- Left-pad a digit string with zeros to the given width. -/
def padLeftZeros (s : String) (n : Nat) : String :=
  String.mk (List.replicate (n - s.length) '0') ++ s

/-- Round a rational to the nearest integer, ties to even, as CPython's
fixed-point float formatting does on exactly representable values. -/
def roundHalfEven (q : ℚ) : Int :=
  let f : Int := q.num.fdiv q.den
  let rn : Int := q.num - f * q.den
  if 2 * rn < (q.den : Int) then f
  else if (q.den : Int) < 2 * rn then f + 1
  else if f % 2 = 0 then f else f + 1

/-- Fixed-point decimal rendering with `prec` digits after the point,
modelling Python `format(x, '.<prec>f')` on exact values. -/
def formatFixed (q : ℚ) (prec : Nat) : String :=
  let scaled : Int := roundHalfEven (mkRat (q.num * ((10 ^ prec : Nat) : Int)) q.den)
  let sign : String := if scaled < 0 then "-" else ""
  let m : Nat := scaled.natAbs
  if prec = 0 then sign ++ toString m
  else sign ++ toString (m / 10 ^ prec) ++ "." ++ padLeftZeros (toString (m % 10 ^ prec)) prec

/-- Applying the format spec `.<prec>f` to a Python value: numbers and bools
format; any other value (None, str, list, dict) raises. -/
def formatVal (prec : Nat) : PyVal → Except PyErr String
  | PyVal.int n => Except.ok (formatFixed (mkRat n 1) prec)
  | PyVal.float q => Except.ok (formatFixed q prec)
  | PyVal.bool b => Except.ok (formatFixed (mkRat (if b then 1 else 0) 1) prec)
  | _ => Except.error (PyErr.typeError "unsupported format string")

/-- The request context: the raw `ctx` JSON object, a string-keyed dict. -/
def Ctx : Type := List (String × PyVal)

/-- Python `ctx.get(key)`: the first binding for `key`, defaulting to None. -/
def ctxGet (ctx : Ctx) (k : String) : PyVal :=
  match List.lookup k ctx with
  | some v => v
  | Option.none => PyVal.none

/-- One candidate as parsed by the pydantic model: `index` an int, `pred_ms`
a float, `steps` an arbitrary optional value. -/
structure Candidate where
  index : Int
  pred_ms : ℚ
  steps : PyVal := PyVal.none

/-- The fixed model name passed to the external process. -/
def MODEL : String := "gemma3:4b"

/-- The fixed JSON-only instruction line. -/
def JSON_ONLY : String := "Return ONLY a JSON list (e.g., [3,1,2]). No prose."

/-- The fixed goal line. -/
def GOAL : String := "GOAL: pick best tradeoff of speed vs hazard. Prefer lower pred_ms unless heat/gas imply sensing first. Avoid redundant waits."

/-- Rendering of `int(bool(v))` inside the context f-string. -/
def hazardFlag (v : PyVal) : String := if pyBool v then "1" else "0"

/-- The context line of the prompt. The ", " between the gas flag and the
noise flag reproduces the space present in the source f-string. -/
def ctxLine (ctx : Ctx) : Except PyErr String :=
  match formatVal 1 (ctxGet ctx "size") with
  | Except.error e => Except.error e
  | Except.ok s =>
    match formatVal 2 (ctxGet ctx "clutter") with
    | Except.error e => Except.error e
    | Except.ok cl =>
      Except.ok ("CTX: " ++ s ++ "," ++ cl ++ "," ++ hazardFlag (ctxGet ctx "heat") ++
        "," ++ hazardFlag (ctxGet ctx "gas") ++ ", " ++ hazardFlag (ctxGet ctx "noise"))

/-- The abbreviation dict lookup `abbr.get(s, ...)` without its default. -/
def abbr (s : String) : Option String :=
  if s == "lidar_scan" then some "L"
  else if s == "thermal_snap" then some "T"
  else if s == "gas_sniff" then some "G"
  else if s == "audio_probe" then some "A"
  else if s == "wait" then some "W"
  else Option.none

/-- Abbreviation of one string token: table entry, else `s[:1].upper()`. -/
def abbrChar (s : String) : String :=
  match abbr s with
  | some t => t
  | Option.none => String.mk ((s.data.take 1).map Char.toUpper)

/-- Abbreviating one flattened token; a non-string token raises (Python
evaluates `s[:1].upper()` on it). -/
def tokenAbbr : PyVal → Except PyErr String
  | PyVal.str s => Except.ok (abbrChar s)
  | _ => Except.error (PyErr.typeError "token is not a string")

/-- The flattening loop: `flat = []; for step in steps: if isinstance(step,
list): flat += step`. -/
def flattenOneLevel (stages : List PyVal) : List PyVal :=
  stages.foldl (fun acc stage => match stage with
    | PyVal.list ys => acc ++ ys
    | _ => acc) []

/-- The candidate signature: empty unless `steps` is a list; otherwise the
first 8 flattened tokens abbreviated and concatenated. -/
def signature (steps : PyVal) : Except PyErr String :=
  match steps with
  | PyVal.list stages =>
    match ((flattenOneLevel stages).take 8).mapM tokenAbbr with
    | Except.ok toks => Except.ok (String.join toks)
    | Except.error e => Except.error e
  | _ => Except.ok ""

/-- Python `int(x)` on a float: truncation toward zero. -/
def pyInt (q : ℚ) : Int := q.num.tdiv q.den

/-- One candidate line: `<index>:<int(pred_ms)>,<signature>`. -/
def candLine (c : Candidate) : Except PyErr String :=
  match signature c.steps with
  | Except.error e => Except.error e
  | Except.ok sg => Except.ok (toString c.index ++ ":" ++ toString (pyInt c.pred_ms) ++ "," ++ sg)

/-- The candidate for-loop, appending one line per candidate to `lines`. -/
def candLoop : List Candidate → List String → Except PyErr (List String)
  | [], acc => Except.ok acc
  | c :: rest, acc =>
    match candLine c with
    | Except.ok l => candLoop rest (acc ++ [l])
    | Except.error e => Except.error e

/-- Prompt construction: the four header lines, then the candidate loop, then
`"\n".join(lines)`. This all runs before the try block, so any exception here
propagates out of the handler. -/
def buildPrompt (ctx : Ctx) (cands : List Candidate) : Except PyErr String :=
  match ctxLine ctx with
  | Except.error e => Except.error e
  | Except.ok cl =>
    match candLoop cands [cl, GOAL, JSON_ONLY, "CANDIDATES:"] with
    | Except.error e => Except.error e
    | Except.ok ls => Except.ok (String.intercalate "\n" ls)

/-- The backquote character, U+0060. -/
def tick : Char := Char.ofNat 96

/-- Test for the backquote character. -/
def isTick (c : Char) : Bool := c == tick

/-- The whitespace characters of Python `str.strip()` (ASCII range). -/
def pyWs (c : Char) : Bool :=
  c == ' ' || c == '\t' || c == '\n' || c == '\r' || c == Char.ofNat 11 || c == Char.ofNat 12

/-- Python `txt.strip()`: remove whitespace from both ends. -/
def pyStrip (s : String) : String :=
  String.mk (((s.data.dropWhile pyWs).reverse.dropWhile pyWs).reverse)

/-- Python `txt.startswith(3 backquotes)`. -/
def startsFence (s : String) : Bool :=
  match s.data with
  | a :: b :: c :: _ => isTick a && isTick b && isTick c
  | _ => false

/-- Python `(newline) in txt`. -/
def containsNl (s : String) : Bool := s.data.any (fun c => c == '\n')

/-- Python `txt.strip(backquote)`: remove backquotes from both ends. -/
def stripBackticks (s : String) : String :=
  String.mk (((s.data.dropWhile isTick).reverse.dropWhile isTick).reverse)

/-- Python `txt.split(newline, 1)[1]`: everything after the first newline. -/
def afterFirstNewline (s : String) : String :=
  String.mk ((s.data.dropWhile (fun c => !(c == '\n'))).drop 1)

/-- The code-fence handling of the validator: if the stripped stdout starts
with a triple backquote, strip backquotes from both ends, strip whitespace,
and if a newline remains drop through the first newline and strip again. -/
def stripFence (txt : String) : String :=
  if startsFence txt then
    let t := pyStrip (stripBackticks txt)
    if containsNl t then pyStrip (afterFirstNewline t) else t
  else txt

/-- JSON whitespace. -/
def jsonWs (c : Char) : Bool := c == ' ' || c == '\n' || c == '\t' || c == '\r'

/-- Drop leading JSON whitespace. -/
def skipWs (cs : List Char) : List Char := cs.dropWhile jsonWs

/-- Numeric value of a digit string. -/
def digitsToNat (ds : List Char) : Nat := ds.foldl (fun a c => a * 10 + (c.toNat - 48)) 0

/-- Parse a JSON number: an integer yields `PyVal.int`, a fraction yields
`PyVal.float` as an exact rational (exponents are not modelled; no claim
exercises them). -/
def parseNumber (cs : List Char) : Option (PyVal × List Char) :=
  let p := match cs with
    | '-' :: r => (true, r)
    | _ => (false, cs)
  let ds := p.2.takeWhile Char.isDigit
  if ds.isEmpty then Option.none else
  let rest := p.2.drop ds.length
  match rest with
  | '.' :: r2 =>
    let fs := r2.takeWhile Char.isDigit
    if fs.isEmpty then Option.none else
    let n : Int := ((digitsToNat ds * 10 ^ fs.length + digitsToNat fs : Nat) : Int)
    let mantissa : ℚ := mkRat (if p.1 then -n else n) (10 ^ fs.length)
    some (PyVal.float mantissa, r2.drop fs.length)
  | _ => some (PyVal.int (if p.1 then -(digitsToNat ds : Int) else (digitsToNat ds : Int)), rest)

/-- Parse a JSON string body after the opening quote (escape sequences are
not modelled; no claim exercises them). -/
def parseStringBody (cs : List Char) : Option (String × List Char) :=
  let body := cs.takeWhile (fun c => !(c == '"' || c == '\\'))
  match cs.drop body.length with
  | '"' :: rest => some (String.mk body, rest)
  | _ => Option.none

mutual

/-- Fuel-indexed recursive-descent parse of one JSON value, modelling the
subset of `json.loads` the handler can meet: literals, numbers, strings and
arrays. -/
def parseV : Nat → List Char → Option (PyVal × List Char)
  | 0, _ => Option.none
  | fuel + 1, cs =>
    match skipWs cs with
    | 't' :: 'r' :: 'u' :: 'e' :: rest => some (PyVal.bool true, rest)
    | 'f' :: 'a' :: 'l' :: 's' :: 'e' :: rest => some (PyVal.bool false, rest)
    | 'n' :: 'u' :: 'l' :: 'l' :: rest => some (PyVal.none, rest)
    | '"' :: rest =>
      match parseStringBody rest with
      | some (s, rest2) => some (PyVal.str s, rest2)
      | Option.none => Option.none
    | '[' :: rest =>
      match skipWs rest with
      | ']' :: rest2 => some (PyVal.list [], rest2)
      | _ =>
        match parseItems fuel rest with
        | some (xs, rest2) => some (PyVal.list xs, rest2)
        | Option.none => Option.none
    | other => parseNumber other

/-- Parse the comma-separated items of a JSON array up to `]`. -/
def parseItems : Nat → List Char → Option (List PyVal × List Char)
  | 0, _ => Option.none
  | fuel + 1, cs =>
    match parseV fuel cs with
    | Option.none => Option.none
    | some (v, rest) =>
      match skipWs rest with
      | ',' :: rest2 =>
        match parseItems fuel rest2 with
        | some (vs, rest3) => some (v :: vs, rest3)
        | Option.none => Option.none
      | ']' :: rest2 => some ([v], rest2)
      | _ => Option.none

end

/-- Model of `json.loads`: parse one value and require only trailing
whitespace after it; `Option.none` models a raised JSONDecodeError. -/
def jsonLoads (s : String) : Option PyVal :=
  match parseV (2 * s.length + 2) s.data with
  | some (v, rest) => if (skipWs rest).isEmpty then some v else Option.none
  | Option.none => Option.none

/-- The shape check on the parsed value: a list whose elements all pass
`isinstance(_, int)` is returned as-is; anything else raises, which the
handler's except clause turns into the empty list. -/
def checkShape (v : PyVal) : List PyVal :=
  match v with
  | PyVal.list xs => if xs.all isInstInt then xs else []
  | _ => []

/-- The whole in-try treatment of the captured stdout: strip, handle a code
fence, parse as JSON, check the shape; every failure collapses to `[]`. -/
def validateOutput (stdout : String) : List PyVal :=
  match jsonLoads (stripFence (pyStrip stdout)) with
  | some v => checkShape v
  | Option.none => []

/-- Outcome of the `subprocess.run` call: the three exception classes the
call can raise (file not found, timeout, an OS error on the streams), or a
completed process with its exit status and captured streams. `subprocess.run`
without `check=True` does not raise on a non-zero exit status. -/
inductive InvokeOutcome where
  | fileNotFound
  | timeout
  | ioError
  | completed (exitCode : Int) (stdout : String) (stderr : String)

/-- The request handler: build the prompt (outside the try block, so an
encoding exception propagates), then run the process and validate inside
try/except, where any exception yields the empty fallback. The exit status
of a completed process is never inspected. -/
def rerank (ctx : Ctx) (cands : List Candidate) (outcome : InvokeOutcome) :
    Except PyErr (List PyVal) :=
  match buildPrompt ctx cands with
  | Except.error e => Except.error e
  | Except.ok _ =>
    match outcome with
    | InvokeOutcome.completed _ stdout _ => Except.ok (validateOutput stdout)
    | _ => Except.ok []

/-- The end-to-end example context of the spec. -/
def ctxExample : Ctx :=
  [("size", PyVal.float (mkRat 2 1)), ("clutter", PyVal.float (mkRat 1 2)), ("heat", PyVal.bool true),
   ("gas", PyVal.bool false), ("noise", PyVal.bool false)]

/-- The end-to-end example candidate of the spec. -/
def candExample : Candidate :=
  ⟨0, mkRat 120 1, PyVal.list [PyVal.list [PyVal.str "lidar_scan", PyVal.str "wait"]]⟩

/-- A `steps` value with 3 stages of 4 tokens each (12 tokens total). -/
def stepsTwelve : PyVal :=
  PyVal.list
    [PyVal.list [PyVal.str "lidar_scan", PyVal.str "wait", PyVal.str "thermal_snap", PyVal.str "gas_sniff"],
     PyVal.list [PyVal.str "audio_probe", PyVal.str "wait", PyVal.str "foo", PyVal.str "bar"],
     PyVal.list [PyVal.str "x", PyVal.str "y", PyVal.str "z", PyVal.str "w"]]

/-- One top-level element's contribution to the one-level flattening: a
sequence contributes its elements, anything else is dropped. -/
def stageElems : PyVal → List PyVal
  | PyVal.list ys => ys
  | _ => []

/-- The values accepted by the fixed-point format spec: ints, floats, bools. -/
def canFixedFormat : PyVal → Bool
  | PyVal.int _ => true
  | PyVal.float _ => true
  | PyVal.bool _ => true
  | _ => false

/-- Pointwise candidate-line rendering in input order, failing on the first
candidate whose encoding raises. -/
def mapLines : List Candidate → Except PyErr (List String)
  | [] => Except.ok []
  | c :: rest =>
    match candLine c with
    | Except.error e => Except.error e
    | Except.ok l =>
      match mapLines rest with
      | Except.error e => Except.error e
      | Except.ok ls => Except.ok (l :: ls)

/-- A fixed-point format of a formattable value always succeeds. -/
theorem formatVal_ok (p : Nat) (v : PyVal) (h : canFixedFormat v = true) :
    ∃ s, formatVal p v = Except.ok s := by
  cases v <;> simp [canFixedFormat] at h <;> exact ⟨_, rfl⟩

/-- A list of ints passes the elementwise isinstance check. -/
theorem all_isInstInt_map_int (ns : List Int) : (ns.map PyVal.int).all isInstInt = true := by
  induction ns with
  | nil => rfl
  | cons n ns ih => simp [List.map_cons, List.all_cons, isInstInt, ih]

/-- The shape check passes a list through unchanged when every element
passes the isinstance check. -/
theorem checkShape_all_pass (xs : List PyVal) (h : xs.all isInstInt = true) :
    checkShape (PyVal.list xs) = xs := by
  simp [checkShape, h]

/-- Abbreviating a list of string tokens never raises and abbreviates
pointwise. -/
theorem mapM_tokenAbbr_str (ss : List String) :
    (ss.map PyVal.str).mapM tokenAbbr = Except.ok (ss.map abbrChar) := by
  induction ss with
  | nil => rfl
  | cons s ss ih =>
    rw [List.map_cons, List.mapM_cons]
    show ((ss.map PyVal.str).mapM tokenAbbr >>= fun xs => pure (abbrChar s :: xs)) = _
    rw [ih]
    rfl

/-- The flattening loop flattens exactly one level, dropping top-level
elements that are not sequences. -/
theorem flattenOneLevel_eq (stages : List PyVal) :
    flattenOneLevel stages = (stages.map stageElems).flatten := by
  have aux : ∀ (l : List PyVal) (acc : List PyVal),
      l.foldl (fun acc stage => match stage with
        | PyVal.list ys => acc ++ ys
        | _ => acc) acc = acc ++ (l.map stageElems).flatten := by
    intro l
    induction l with
    | nil => intro acc; simp
    | cons x xs ih =>
      intro acc
      cases x <;> simp [List.foldl_cons, stageElems, ih, List.append_assoc]
  simpa using aux stages []

/-- The candidate loop is the per-candidate line map appended to the
accumulator, failing on the first raising candidate. -/
theorem candLoop_eq (cands : List Candidate) : ∀ acc : List String,
    candLoop cands acc = (mapLines cands).map (fun ls => acc ++ ls) := by
  induction cands with
  | nil => intro acc; simp [candLoop, mapLines, Except.map]
  | cons c rest ih =>
    intro acc
    cases hc : candLine c with
    | error e => simp [candLoop, mapLines, hc, Except.map]
    | ok l =>
      cases hr : mapLines rest with
      | error e => simp [candLoop, mapLines, hc, hr, ih, Except.map]
      | ok ls => simp [candLoop, mapLines, hc, hr, ih, Except.map]

/-- A successful line map has one line per candidate. -/
theorem mapLines_length (cands : List Candidate) : ∀ ls : List String,
    mapLines cands = Except.ok ls → ls.length = cands.length := by
  induction cands with
  | nil => intro ls h; simp [mapLines] at h; simp [← h]
  | cons c rest ih =>
    intro ls h
    cases hc : candLine c with
    | error e => rw [mapLines, hc] at h; cases h
    | ok l =>
      rw [mapLines, hc] at h
      cases hr : mapLines rest with
      | error e => rw [hr] at h; cases h
      | ok ls2 =>
        rw [hr] at h
        have h2 : l :: ls2 = ls := Except.ok.inj h
        rw [← h2, List.length_cons, ih ls2 hr, List.length_cons]

/-- Dropping while a predicate holds skips a leading block of a character the
predicate accepts. -/
theorem dropWhile_replicate (p : Char → Bool) (c : Char) (h : p c = true) :
    ∀ (n : Nat) (l : List Char), List.dropWhile p (List.replicate n c ++ l) = List.dropWhile p l := by
  intro n
  induction n with
  | zero => intro l; simp
  | succ n ih => intro l; simp [List.replicate_succ, List.dropWhile_cons, h, ih]

/-- Dropping while a predicate holds is the identity when the head already
fails the predicate. -/
theorem dropWhile_eq_self_of_head (p : Char → Bool) (l : List Char)
    (h : ∀ c, l.head? = some c → p c = false) : List.dropWhile p l = l := by
  cases l with
  | nil => rfl
  | cons x xs =>
    have hx := h x rfl
    simp [List.dropWhile_cons, hx]

/-- Scanning to the first newline consumes exactly the newline-free block
before it. -/
theorem dropWhile_to_newline (pre post : List Char) (h : ∀ c, c ∈ pre → c ≠ '\n') :
    List.dropWhile (fun c => !(c == '\n')) (pre ++ '\n' :: post) = '\n' :: post := by
  induction pre with
  | nil => simp [List.dropWhile_cons]
  | cons x xs ih =>
    have hx : (x == '\n') = false := beq_eq_false_iff_ne.mpr (h x (List.mem_cons_self x xs))
    simp only [List.cons_append, List.dropWhile_cons, hx]
    simpa using ih (fun c hc => h c (List.mem_cons_of_mem _ hc))

/-- Python `int(...)` on an exact rational truncates toward zero: the floor
for nonnegative values, the ceiling for negative ones. -/
theorem pyInt_trunc (q : ℚ) : pyInt q = if 0 ≤ q then ⌊q⌋ else ⌈q⌉ := by
  by_cases hq : 0 ≤ q
  · rw [if_pos hq, Rat.floor_def, pyInt]
    exact Int.tdiv_eq_ediv (Rat.num_nonneg.mpr hq) (Int.ofNat_nonneg q.den)
  · rw [if_neg hq, pyInt]
    have h1 : ⌈q⌉ = -⌊-q⌋ := by rw [Int.floor_neg]; ring
    have h2 : ⌊-q⌋ = (-q.num) / (q.den : Int) := by
      rw [Rat.floor_def, Rat.num_neg_eq_neg_num, Rat.den_neg_eq_den]
    have h3 : (0 : ℚ) ≤ -q := le_of_lt (neg_pos.mpr (lt_of_not_le hq))
    have h4 : (0 : Int) ≤ -q.num := by
      rw [← Rat.num_neg_eq_neg_num]
      exact Rat.num_nonneg.mpr h3
    have h5 : (-q.num) / (q.den : Int) = (-q.num).tdiv q.den :=
      (Int.tdiv_eq_ediv h4 (Int.ofNat_nonneg q.den)).symm
    rw [h1, h2, h5, Int.neg_tdiv, neg_neg]

/-- The context line depends on the context dict only through the five
looked-up fields. -/
theorem ctxLine_congr (ctx1 ctx2 : Ctx)
    (hs : ctxGet ctx2 "size" = ctxGet ctx1 "size")
    (hc : ctxGet ctx2 "clutter" = ctxGet ctx1 "clutter")
    (hh : ctxGet ctx2 "heat" = ctxGet ctx1 "heat")
    (hg : ctxGet ctx2 "gas" = ctxGet ctx1 "gas")
    (hn : ctxGet ctx2 "noise" = ctxGet ctx1 "noise") :
    ctxLine ctx2 = ctxLine ctx1 := by
  rw [ctxLine, ctxLine, hs, hc, hh, hg, hn]

/-- C1: the claim fails as stated: the handler never inspects the exit
status, so a completed process with a non-zero exit status whose stdout is a
valid JSON list of ints does not yield the empty fallback. -/
theorem C1_counterexample :
    rerank ctxExample [] (InvokeOutcome.completed 1 "[1,2]" "") ≠ Except.ok [] := by
  intro h
  have h2 : (Except.ok [PyVal.int 1, PyVal.int 2] : Except PyErr (List PyVal)) = Except.ok [] := h
  simp at h2

/-- C1 (amended): when encoding succeeds, a launch failure, a timeout, or an
I/O error on the streams each yields the empty fallback, and a completed
process yields the validation of its stdout regardless of exit status; in
every case no exception reaches the HTTP client. -/
theorem C1_amended : ∀ (ctx : Ctx) (cands : List Candidate) (p : String),
    buildPrompt ctx cands = Except.ok p →
    rerank ctx cands InvokeOutcome.fileNotFound = Except.ok []
    ∧ rerank ctx cands InvokeOutcome.timeout = Except.ok []
    ∧ rerank ctx cands InvokeOutcome.ioError = Except.ok []
    ∧ ∀ (code : Int) (sout serr : String),
        rerank ctx cands (InvokeOutcome.completed code sout serr) = Except.ok (validateOutput sout) := by
  intro ctx cands p h
  refine ⟨?_, ?_, ?_, ?_⟩ <;> simp [rerank, h]

/-- C1 (witness): the amended statement at the example context, no
candidates, and a timeout. -/
theorem C1_witness : rerank ctxExample [] InvokeOutcome.timeout = Except.ok [] :=
  (C1_amended ctxExample [] _ rfl).2.1

/-- C2: the claim fails as stated: a context missing the `size` field makes
the encoding raise, and the exception propagates out of the handler (the
encoding runs before the try block). -/
theorem C2_counterexample :
    rerank [("clutter", PyVal.float (mkRat 1 2))] [] (InvokeOutcome.completed 0 "[]" "") =
      Except.error (PyErr.typeError "unsupported format string") := rfl

/-- C2 (amended): missing hazard flags never make the context line raise as
long as `size` and `clutter` hold formattable values; a context whose `size`
is absent raises; a candidate whose flattened steps contain a non-string
token raises; an empty-string token does not raise. -/
theorem C2_amended :
    (∀ ctx : Ctx, canFixedFormat (ctxGet ctx "size") = true →
        canFixedFormat (ctxGet ctx "clutter") = true → ∃ s, ctxLine ctx = Except.ok s)
    ∧ (∀ ctx : Ctx, ctxGet ctx "size" = PyVal.none →
        ctxLine ctx = Except.error (PyErr.typeError "unsupported format string"))
    ∧ (∀ c : Candidate, c.steps = PyVal.list [PyVal.list [PyVal.int 3]] →
        candLine c = Except.error (PyErr.typeError "token is not a string"))
    ∧ tokenAbbr (PyVal.str "") = Except.ok "" := by
  refine ⟨?_, ?_, ?_, rfl⟩
  · intro ctx h1 h2
    obtain ⟨s1, hs1⟩ := formatVal_ok 1 _ h1
    obtain ⟨s2, hs2⟩ := formatVal_ok 2 _ h2
    refine ⟨"CTX: " ++ s1 ++ "," ++ s2 ++ "," ++ hazardFlag (ctxGet ctx "heat") ++ "," ++
      hazardFlag (ctxGet ctx "gas") ++ ", " ++ hazardFlag (ctxGet ctx "noise"), ?_⟩
    simp only [ctxLine, hs1, hs2]
  · intro ctx h
    simp only [ctxLine, h]
    rfl
  · intro c h
    simp only [candLine, h]
    rfl

/-- C2 (witness): the first amended conjunct at the example context. -/
theorem C2_witness : ∃ s, ctxLine ctxExample = Except.ok s := C2_amended.1 ctxExample rfl rfl

/-- C3: the claim fails as stated: the context line produced for the example
context carries a space between the gas flag and the noise flag, so it is
not the claimed space-free string. -/
theorem C3_counterexample : ctxLine ctxExample = Except.ok "CTX: 2.0,0.50,1,0, 0"
    ∧ "CTX: 2.0,0.50,1,0, 0" ≠ "CTX: 2.0,0.50,1,0,0" := ⟨rfl, by decide⟩

/-- C3 (amended): for the example context the line is `CTX: ` followed by
size with 1 decimal, clutter with 2 decimals, and the three hazard flags,
comma-separated, with a single space between the gas and noise flags. -/
theorem C3_amended : ctxLine ctxExample =
    Except.ok ("CTX: " ++ "2.0" ++ "," ++ "0.50" ++ "," ++ "1" ++ "," ++ "0" ++ ", " ++ "0") := rfl

/-- C4: the signature flattens `steps` exactly one level dropping non-list
elements, truncates to 8 tokens, abbreviates each token through the fixed
table with first-character-uppercased default (empty string included, no
raise), concatenates with no separator; a non-list `steps` gives the empty
signature; 3 stages of 4 tokens give exactly 8 abbreviation characters. -/
theorem C4_signature :
    (∀ stages : List PyVal, flattenOneLevel stages = (stages.map stageElems).flatten)
    ∧ (∀ (stages : List PyVal) (ss : List String),
        (flattenOneLevel stages).take 8 = ss.map PyVal.str →
        signature (PyVal.list stages) = Except.ok (String.join (ss.map abbrChar)))
    ∧ (∀ v : PyVal, (∀ xs, v ≠ PyVal.list xs) → signature v = Except.ok "")
    ∧ (abbrChar "lidar_scan" = "L" ∧ abbrChar "thermal_snap" = "T" ∧ abbrChar "gas_sniff" = "G"
       ∧ abbrChar "audio_probe" = "A" ∧ abbrChar "wait" = "W" ∧ abbrChar "foo" = "F"
       ∧ abbrChar "" = "")
    ∧ signature stepsTwelve = Except.ok "LWTGAWFB" ∧ ("LWTGAWFB").length = 8 := by
  refine ⟨flattenOneLevel_eq, ?_, ?_, ⟨rfl, rfl, rfl, rfl, rfl, rfl, rfl⟩, rfl, rfl⟩
  · intro stages ss h
    simp only [signature, h, mapM_tokenAbbr_str]
  · intro v hv
    cases v <;> first | rfl | exact absurd rfl (hv _)

/-- C4 (witness): the abbreviation conjunct at a one-stage plan. -/
theorem C4_witness : signature (PyVal.list [PyVal.list [PyVal.str "wait"]]) =
    Except.ok (String.join (["wait"].map abbrChar)) :=
  C4_signature.2.1 [PyVal.list [PyVal.str "wait"]] ["wait"] rfl

/-- C5: a parsed value that is a list of ints is returned to the caller
exactly as-is — order and duplicates preserved and no comparison against the
candidate list, which is quantified independently. -/
theorem C5_passthrough : ∀ (ctx : Ctx) (cands : List Candidate) (p : String)
    (ns : List Int) (stdout : String),
    buildPrompt ctx cands = Except.ok p →
    jsonLoads (stripFence (pyStrip stdout)) = some (PyVal.list (ns.map PyVal.int)) →
    rerank ctx cands (InvokeOutcome.completed 0 stdout "") = Except.ok (ns.map PyVal.int) := by
  intro ctx cands p ns stdout hbp hj
  simp only [rerank, hbp, validateOutput, hj]
  rw [checkShape_all_pass _ (all_isInstInt_map_int ns)]

/-- C5 (witness): a duplicate and out-of-range output passes through at the
example context with zero candidates. -/
theorem C5_witness : rerank ctxExample [] (InvokeOutcome.completed 0 "[5, 5, 99]" "") =
    Except.ok (([5, 5, 99] : List Int).map PyVal.int) :=
  C5_passthrough ctxExample [] _ [5, 5, 99] "[5, 5, 99]" rfl rfl

/-- C6: a parsed value that is not a list, or a list with an element failing
the isinstance-int check (floats, strings), is collapsed to the empty
fallback, never truncated; in particular raw output "[1, 2.5, 3]" yields []. -/
theorem C6_shape_rejection :
    (∀ (xs : List PyVal) (e : PyVal), e ∈ xs → isInstInt e = false →
        checkShape (PyVal.list xs) = [])
    ∧ (∀ v : PyVal, (∀ xs, v ≠ PyVal.list xs) → checkShape v = [])
    ∧ validateOutput "[1, 2.5, 3]" = [] := by
  refine ⟨?_, ?_, rfl⟩
  · intro xs e he hf
    have hall : xs.all isInstInt = false := by
      by_cases h : xs.all isInstInt = true
      · rw [List.all_eq_true.mp h e he] at hf
        cases hf
      · simpa using h
    simp [checkShape, hall]
  · intro v hv
    cases v <;> first | rfl | exact absurd rfl (hv _)

/-- C6 (witness): the rejection conjunct at a list containing a float. -/
theorem C6_witness : checkShape (PyVal.list [PyVal.int 1, PyVal.float (mkRat 5 2), PyVal.int 3]) = [] :=
  C6_shape_rejection.1 [PyVal.int 1, PyVal.float (mkRat 5 2), PyVal.int 3] (PyVal.float (mkRat 5 2))
    (by simp) rfl

/-- C7: fence handling strips all backquotes from both ends, scanning to the
first newline discards exactly the newline-free prefix with the newline, and
the fenced example validates to [2,0,1]. -/
theorem C7_fence_stripping :
    (∀ (a b : Nat) (core : List Char),
        (∀ c, core.head? = some c → isTick c = false) →
        (∀ c, core.getLast? = some c → isTick c = false) →
        stripBackticks (String.mk (List.replicate a tick ++ core ++ List.replicate b tick)) =
          String.mk core)
    ∧ (∀ (pre post : List Char), (∀ c, c ∈ pre → c ≠ '\n') →
        afterFirstNewline (String.mk (pre ++ '\n' :: post)) = String.mk post)
    ∧ validateOutput "```json\n[2,0,1]\n```" = [PyVal.int 2, PyVal.int 0, PyVal.int 1] := by
  refine ⟨?_, ?_, rfl⟩
  · intro a b core hh hl
    have htick : isTick tick = true := by simp [isTick]
    show String.mk ((((List.replicate a tick ++ core ++ List.replicate b tick).dropWhile
      isTick).reverse.dropWhile isTick).reverse) = String.mk core
    cases core with
    | nil =>
      have step1 : (List.replicate a tick ++ [] ++ List.replicate b tick).dropWhile isTick = [] := by
        rw [List.append_nil, dropWhile_replicate isTick tick htick,
          ← List.append_nil (List.replicate b tick), dropWhile_replicate isTick tick htick]
        rfl
      rw [step1]
      rfl
    | cons x xs =>
      have hx : isTick x = false := hh x rfl
      have step1 : (List.replicate a tick ++ (x :: xs) ++ List.replicate b tick).dropWhile isTick
          = (x :: xs) ++ List.replicate b tick := by
        rw [List.append_assoc, dropWhile_replicate isTick tick htick]
        simp [List.dropWhile_cons, hx]
      rw [step1, List.reverse_append, List.reverse_replicate,
        dropWhile_replicate isTick tick htick]
      have step3 : (x :: xs).reverse.dropWhile isTick = (x :: xs).reverse := by
        apply dropWhile_eq_self_of_head
        intro c hc
        rw [List.head?_reverse] at hc
        exact hl c hc
      rw [step3, List.reverse_reverse]
  · intro pre post h
    show String.mk (((pre ++ '\n' :: post).dropWhile (fun c => !(c == '\n'))).drop 1) =
      String.mk post
    rw [dropWhile_to_newline pre post h]
    rfl

/-- C7 (witness): backquote stripping at a one-character core wrapped in one
backquote on each side. -/
theorem C7_witness : stripBackticks (String.mk (List.replicate 1 tick ++ ['a'] ++
    List.replicate 1 tick)) = String.mk ['a'] :=
  C7_fence_stripping.1 1 1 ['a']
    (fun c hc => by simp at hc; subst hc; decide)
    (fun c hc => by simp at hc; subst hc; decide)

/-- C8: each candidate line is `<index>:<int(pred_ms)>,<signature>` with
`int(...)` truncating toward zero (floor for nonnegative, ceiling for
negative, never rounding), and the example candidate renders as `0:120,LW`. -/
theorem C8_candidate_line :
    (∀ (c : Candidate) (sg : String), signature c.steps = Except.ok sg →
        candLine c = Except.ok (toString c.index ++ ":" ++ toString (pyInt c.pred_ms) ++
          "," ++ sg))
    ∧ (∀ q : ℚ, pyInt q = if 0 ≤ q then ⌊q⌋ else ⌈q⌉)
    ∧ pyInt (mkRat 5 2) = 2 ∧ pyInt (mkRat (-5) 2) = -2
    ∧ candLine candExample = Except.ok "0:120,LW" := by
  refine ⟨?_, pyInt_trunc, rfl, rfl, rfl⟩
  intro c sg h
  simp only [candLine, h]

/-- C8 (witness): the line-format conjunct at the example candidate. -/
theorem C8_witness : candLine candExample = Except.ok (toString candExample.index ++ ":" ++
    toString (pyInt candExample.pred_ms) ++ "," ++ "LW") :=
  C8_candidate_line.1 candExample "LW" rfl

/-- C9: a successful prompt is exactly the context line, the fixed goal line,
the fixed JSON-only line, the `CANDIDATES:` header and one line per candidate
in input order, joined by single newlines; and it depends on the context dict
only through the five looked-up fields, so field order is irrelevant. As a
pure function of its arguments the encoder is deterministic and effect-free. -/
theorem C9_prompt_structure : ∀ (ctx : Ctx) (cands : List Candidate) (p : String),
    buildPrompt ctx cands = Except.ok p →
    (∃ cl cls, ctxLine ctx = Except.ok cl ∧ mapLines cands = Except.ok cls ∧
      cls.length = cands.length ∧
      p = String.intercalate "\n" ([cl, GOAL, JSON_ONLY, "CANDIDATES:"] ++ cls))
    ∧ ∀ ctx2 : Ctx, ctxGet ctx2 "size" = ctxGet ctx "size" →
        ctxGet ctx2 "clutter" = ctxGet ctx "clutter" →
        ctxGet ctx2 "heat" = ctxGet ctx "heat" →
        ctxGet ctx2 "gas" = ctxGet ctx "gas" →
        ctxGet ctx2 "noise" = ctxGet ctx "noise" →
        buildPrompt ctx2 cands = Except.ok p := by
  intro ctx cands p h
  constructor
  · cases hcl : ctxLine ctx with
    | error e => simp only [buildPrompt, hcl] at h; cases h
    | ok cl =>
      cases hml : mapLines cands with
      | error e =>
        simp only [buildPrompt, hcl, candLoop_eq, hml, Except.map] at h
        cases h
      | ok cls =>
        simp only [buildPrompt, hcl, candLoop_eq, hml, Except.map, Except.ok.injEq] at h
        exact ⟨cl, cls, rfl, rfl, mapLines_length cands cls hml, h.symm⟩
  · intro ctx2 h1 h2 h3 h4 h5
    have hline : ctxLine ctx2 = ctxLine ctx := ctxLine_congr ctx ctx2 h1 h2 h3 h4 h5
    have e1 : buildPrompt ctx2 cands = buildPrompt ctx cands := by
      simp only [buildPrompt, hline]
    rw [e1]
    exact h

/-- C9 (witness): the structural decomposition at the example request. -/
theorem C9_witness : ∃ cl cls, ctxLine ctxExample = Except.ok cl ∧
    mapLines [candExample] = Except.ok cls ∧ cls.length = [candExample].length ∧
    ("CTX: 2.0,0.50,1,0, 0\nGOAL: pick best tradeoff of speed vs hazard. Prefer lower pred_ms unless heat/gas imply sensing first. Avoid redundant waits.\nReturn ONLY a JSON list (e.g., [3,1,2]). No prose.\nCANDIDATES:\n0:120,LW") =
      String.intercalate "\n" ([cl, GOAL, JSON_ONLY, "CANDIDATES:"] ++ cls) :=
  (C9_prompt_structure ctxExample [candExample]
    "CTX: 2.0,0.50,1,0, 0\nGOAL: pick best tradeoff of speed vs hazard. Prefer lower pred_ms unless heat/gas imply sensing first. Avoid redundant waits.\nReturn ONLY a JSON list (e.g., [3,1,2]). No prose.\nCANDIDATES:\n0:120,LW" rfl).1

/-- C10: the elementwise check is Python `isinstance(_, int)`, which accepts
booleans, so raw output "[true, false]" is returned as-is rather than the
empty fallback; a list whose elements all pass the check passes through. -/
theorem C10_bool_elements :
    isInstInt (PyVal.bool true) = true ∧ isInstInt (PyVal.bool false) = true
    ∧ validateOutput "[true, false]" = [PyVal.bool true, PyVal.bool false]
    ∧ (∀ xs : List PyVal, (∀ e, e ∈ xs → isInstInt e = true) →
        checkShape (PyVal.list xs) = xs) := by
  refine ⟨rfl, rfl, rfl, ?_⟩
  intro xs h
  exact checkShape_all_pass xs (List.all_eq_true.mpr h)

/-- C10 (witness): the pass-through conjunct at a list of two booleans. -/
theorem C10_witness : checkShape (PyVal.list [PyVal.bool true, PyVal.bool false]) =
    [PyVal.bool true, PyVal.bool false] :=
  C10_bool_elements.2.2.2 [PyVal.bool true, PyVal.bool false]
    (by intro e he; simp at he; rcases he with h | h <;> subst h <;> rfl)
